import Mathlib

/-!
Shallow embedding of the order-lifecycle and inventory-reconciliation core of
the inventory-manager backend (`src/functions/src`).

Conventions of the embedding:

* Timestamps are ISO-8601 strings in the code; every timestamp arithmetic in
  the code first converts them to milliseconds since the epoch
  (`new Date(s).getTime()`), so timestamps are modelled as integers
  (milliseconds).  `new Date().toISOString()` at a call site becomes an
  explicit `now : Int` argument.
* A JavaScript field that the code tests for falsiness (absent, `null`, `''`)
  is modelled as an `Option`, with `none` covering the falsy values.
* The Firestore slice touched by these operations is modelled as a `Db`
  record holding the sub-collections of one restaurant (the `restaurantId`
  argument addresses exactly one such slice) together with the global
  `emails` collection.  Firestore batch commits are atomic, and
  `batch.update` / `.update` on a missing document makes the whole commit
  fail; both behaviours are reflected below.
* Fallible operations return `Res × Db`: the outcome (`ok` or `err` with the
  thrown message) together with the resulting store state.
-/

namespace InventoryManager

/-- Order status enumeration from `types/index.ts`. -/
inductive OrderStatus
  | pending
  | sent
  | confirmed
  | delivered
  | cancelled
deriving DecidableEq, Repr

/-- `OrderItem` from `types/index.ts`: a line item embedded in an order. -/
structure OrderItem where
  id : String
  name : String
  currentQuantity : Int
  orderQuantity : Int
  receivedQuantity : Int
  unit : String
deriving DecidableEq, Repr

/-- `Order` from `types/index.ts`.  The stored document also gains a
`lastUpdated` field the first time `updateOrderDocStatus` writes it, and a
`cancelledAt` field when cancelled; both are absent until then. -/
structure Order where
  id : String
  restaurantId : String
  supplierId : String
  supplierName : String
  items : List OrderItem
  status : OrderStatus
  createdAt : Int
  expectedDelivery : Int
  cancelledAt : Option Int
  lastUpdated : Option Int
deriving DecidableEq, Repr

/-- `ReceivedItem` from `types/index.ts`: one entry of a delivery payload. -/
structure ReceivedItem where
  id : String
  name : String
  quantity : Int
  unit : String
deriving DecidableEq, Repr

/-- `InventoryItem` from `types/index.ts`, restricted to the fields the
order-lifecycle and monitoring code reads or writes.  `lastUpdated` and
`updateFrequency` are `Option`s because `checkOutdatedItems` tests them for
JS falsiness; `updateFrequency` is kept as a `String` because
`getFrequencyInDays` has a default branch for values outside
daily/weekly/monthly. -/
structure InventoryItem where
  id : String
  restaurantId : String
  name : String
  currentQuantity : Int
  minimumQuantity : Int
  unit : String
  lastUpdated : Option Int
  updateFrequency : Option String
deriving DecidableEq, Repr

/-- `InventoryHistoryType` from `types/index.ts`. -/
inductive HistoryType
  | tookInventory
  | receivedOrder
deriving DecidableEq, Repr

/-- `InventoryHistoryRecord` from `types/index.ts`. -/
structure InventoryHistoryRecord where
  date : Int
  amount : Int
  type : HistoryType
deriving DecidableEq, Repr

/-- One document of an item's `history` sub-collection, tagged with the id of
the inventory item that owns the sub-collection. -/
structure HistoryEntry where
  itemId : String
  record : InventoryHistoryRecord
deriving DecidableEq, Repr

/-- The partial inventory document `recordOrderDelivery` hands to
`batchUpdateInventoryDocs`: `{id, currentQuantity, lastUpdated}`. -/
structure InventoryUpdate where
  id : String
  currentQuantity : Int
  lastUpdated : Int
deriving DecidableEq, Repr

/-- Supplier contact method from `types/index.ts`. -/
structure ContactMethod where
  type : String
  emails : List String
  phone : String
deriving DecidableEq, Repr

/-- `Supplier` from `types/index.ts`, restricted to the fields the order
path reads. -/
structure Supplier where
  id : String
  name : String
  dispatchTime : Int
  contactMethod : Option ContactMethod
deriving DecidableEq, Repr

/-- `Restaurant` from `types/index.ts`, restricted to the fields the email
path reads. -/
structure Restaurant where
  id : String
  name : String
  address : String
deriving DecidableEq, Repr

/-- A document of the global `emails` collection.  `deliveryState` is the
`delivery.state` sub-field written only by the external email provider
(`none` until the provider writes it); `restaurantId` / `orderId` are the
optional routing fields the delivery trigger tests for truthiness.  The
message body produced by `generateOrderEmailContent` is HTML templating over
the order; it is carried as the `subject`/`html` strings.  `toAddr` models
the `to` field (`to` is a reserved word in Lean). -/
structure EmailDoc where
  id : String
  toAddr : String
  cc : List String
  subject : String
  html : String
  orderId : Option String
  restaurantId : Option String
  deliveryState : Option String
deriving DecidableEq, Repr

/-- The Firestore slice the modelled operations touch: the sub-collections of
one restaurant document (`restaurant = none` means the restaurant document
itself does not exist) plus the global `emails` collection. -/
structure Db where
  restaurant : Option Restaurant
  inventory : List InventoryItem
  orders : List Order
  suppliers : List Supplier
  history : List HistoryEntry
  emails : List EmailDoc
deriving DecidableEq, Repr

/-- Outcome of a fallible operation: `ok`, or `err` with the thrown message. -/
inductive Res
  | ok
  | err (msg : String)
deriving DecidableEq, Repr

/-! ### Lookups

`recordOrderDelivery` builds id-keyed objects with
`xs.reduce((acc, x) => ({...acc, [x.id]: x}), {})`; a later entry with the
same id overwrites an earlier one, so the lookup returns the **last**
matching element.  Document lookups by Firestore doc id (`.doc(id).get()`)
address a unique document and are modelled as first-match finders. -/

/-- Last-match lookup of an inventory item by id, mirroring the
`itemsById` reduce in `recordOrderDelivery`. -/
def lookupItem : List InventoryItem → String → Option InventoryItem
  | [], _ => none
  | it :: rest, x =>
    match lookupItem rest x with
    | some r => some r
    | none => if it.id = x then some it else none

/-- Last-match lookup of a received quantity by item id, mirroring the
`receivedQuantitiesById` reduce in `recordOrderDelivery`. -/
def lookupReceived : List ReceivedItem → String → Option Int
  | [], _ => none
  | r :: rest, x =>
    match lookupReceived rest x with
    | some q => some q
    | none => if r.id = x then some r.quantity else none

/-- First-match lookup of a received entry by id: the natural reading of
"the receivedItems entry with the same id" when ids are distinct. -/
def findReceived : List ReceivedItem → String → Option ReceivedItem
  | [], _ => none
  | r :: rest, x => if r.id = x then some r else findReceived rest x

/-- `getOrderDoc`: fetch of the order document with the given doc id. -/
def findOrder : List Order → String → Option Order
  | [], _ => none
  | o :: rest, x => if o.id = x then some o else findOrder rest x

/-- `getSupplierDoc`: fetch of the supplier document with the given doc id. -/
def findSupplier : List Supplier → String → Option Supplier
  | [], _ => none
  | s :: rest, x => if s.id = x then some s else findSupplier rest x

/-- `getEmail`: fetch of the email document with the given doc id. -/
def findEmail : List EmailDoc → String → Option EmailDoc
  | [], _ => none
  | e :: rest, x => if e.id = x then some e else findEmail rest x

/-! ### FirestoreService operations -/

/-- `FirestoreService.updateOrderDocStatus`: validates the status
(`Validation.validateOrderStatus`, modelled by the closed `OrderStatus`
type) and updates the order document with the new status and a refreshed
`lastUpdated` timestamp.  `.update` on a missing document fails and writes
nothing. -/
def updateOrderDocStatus (db : Db) (id : String) (status : OrderStatus)
    (now : Int) : Res × Db :=
  if (findOrder db.orders id).isSome then
    (Res.ok, { db with orders := db.orders.map (fun o =>
      if o.id = id then { o with status := status, lastUpdated := some now }
      else o) })
  else
    (Res.err "NOT_FOUND: no document to update", db)

/-- The per-line-item checks of `Validation.validateOrderPartial`
(src/unnamed/part_003), in source order; a JS-falsy string field is the
empty string, and the quantity comparisons are `< 0` range checks. -/
def validateOrderItem (it : OrderItem) : Option String :=
  if it.id = "" then some "Item ID is required"
  else if it.name = "" then some "Item name is required"
  else if it.currentQuantity < 0 then some "Current quantity cannot be negative"
  else if it.orderQuantity < 0 then some "Order quantity cannot be negative"
  else if it.receivedQuantity < 0 then
    some "Received quantity cannot be negative"
  else if it.unit = "" then some "Unit is required"
  else none

/-- The item loop of `Validation.validateOrderPartial`: the first failing
check throws. -/
def validateOrderItemsList : List OrderItem → Option String
  | [] => none
  | it :: rest =>
    match validateOrderItem it with
    | some e => some e
    | none => validateOrderItemsList rest

/-- `Validation.validateOrderPartial` (src/unnamed/part_003, called from
`FirestoreService.updateOrder` at firestore.ts:639) restricted to the
partial `{items, status}` that `recordOrderDelivery` passes: the tenant id
is fixed and nonempty, the checks of the absent fields are skipped, and
the items array — present and truthy even when empty — is checked for
emptiness and then item by item. -/
def validateOrderPatch (items : List OrderItem) : Option String :=
  if items = [] then some "Items array cannot be empty"
  else validateOrderItemsList items

/-- `FirestoreService.updateOrder` specialised to the partial document
`{items, status}` that `recordOrderDelivery` passes (a single document
write): `Validation.validateOrderPartial` runs first and throws with
nothing written; then `.update` on a missing document fails. -/
def updateOrder (db : Db) (orderId : String) (newItems : List OrderItem)
    (newStatus : OrderStatus) : Res × Db :=
  match validateOrderPatch newItems with
  | some e => (Res.err e, db)
  | none =>
    if (findOrder db.orders orderId).isSome then
      (Res.ok, { db with orders := db.orders.map (fun o =>
        if o.id = orderId then { o with items := newItems, status := newStatus }
        else o) })
    else
      (Res.err "NOT_FOUND: no document to update", db)

/-- `FirestoreService.cancelOrder`: rejects missing orders and orders that
are already delivered or cancelled, otherwise sets status `cancelled` and a
cancellation timestamp (this path does not touch `lastUpdated`). -/
def cancelOrder (db : Db) (orderId : String) (now : Int) : Res × Db :=
  match findOrder db.orders orderId with
  | none => (Res.err "Order not found", db)
  | some o =>
    if o.status = OrderStatus.delivered ∨ o.status = OrderStatus.cancelled then
      (Res.err "Cannot cancel order that is alreadydelivered or cancelled", db)
    else
      (Res.ok, { db with orders := db.orders.map (fun o2 =>
        if o2.id = orderId then
          { o2 with status := OrderStatus.cancelled, cancelledAt := some now }
        else o2) })

/-- The per-document loop of `FirestoreService.batchUpdateInventoryDocs`:
a JS-falsy (empty) id throws before validation, then
`Validation.validateInventoryItemPartial` (src/unnamed/part_003) runs; of
its checks only the currentQuantity range check can fire on the partial
`{id, currentQuantity, lastUpdated}` — every other validated field is
absent and the tenant id is fixed and nonempty.  The first failure throws
before the commit, so nothing is applied. -/
def validateInventoryUpdates : List InventoryUpdate → Option String
  | [] => none
  | u :: rest =>
    if u.id = "" then some "Item ID is required"
    else if u.currentQuantity < 0 then
      some "Current quantity cannot be negative"
    else validateInventoryUpdates rest

/-- Effect of one batched `update` on the `inventory` collection: the
document with the matching id gets the new `currentQuantity` and
`lastUpdated`. -/
def applyInventoryUpdate (items : List InventoryItem) (u : InventoryUpdate) :
    List InventoryItem :=
  items.map (fun it =>
    if it.id = u.id then
      { it with currentQuantity := u.currentQuantity,
                lastUpdated := some u.lastUpdated }
    else it)

/-- Cumulative effect of a batch of quantity updates on one inventory
document (proof-side view of the per-document last-write-wins semantics of
a committed batch). -/
def applyUpdatesTo (us : List InventoryUpdate) (it : InventoryItem) :
    InventoryItem :=
  us.foldl (fun a u =>
    if a.id = u.id then
      { a with currentQuantity := u.currentQuantity,
               lastUpdated := some u.lastUpdated }
    else a) it

/-- `FirestoreService.batchUpdateInventoryDocs`: the per-document id check
and validation throw before committing; then one atomic batch commits.
`batch.update` on a missing document makes the whole commit fail with
nothing applied; inside a batch a later write to the same document wins. -/
def batchUpdateInventoryDocs (db : Db) (us : List InventoryUpdate) :
    Res × Db :=
  match validateInventoryUpdates us with
  | some e => (Res.err e, db)
  | none =>
    if us.all (fun u => (lookupItem db.inventory u.id).isSome) then
      (Res.ok,
       { db with inventory := us.foldl applyInventoryUpdate db.inventory })
    else (Res.err "NOT_FOUND: no document to update", db)

/-- `Validation.validateInventoryItemHistory` (src/unnamed/part_003) on one
history entry: the tenant id is fixed and nonempty, the date is a
`toISOString` value (nonempty, so the date-required check cannot fire on
the integer-modelled timestamp), and the type is one of the two enumerated
values by construction; the checks that remain are the itemId requirement
and the amount range check. -/
def validateHistoryEntry (e : HistoryEntry) : Option String :=
  if e.itemId = "" then some "Item ID is required"
  else if e.record.amount < 0 then some "Amount cannot be negative"
  else none

/-- The per-record loop of `batchAddInventoryHistoryDocs`: the first
failing validation throws. -/
def validateHistoryEntries : List HistoryEntry → Option String
  | [] => none
  | e :: rest =>
    match validateHistoryEntry e with
    | some msg => some msg
    | none => validateHistoryEntries rest

/-- `FirestoreService.batchAddInventoryHistoryDocs`: validates every record
before committing (a failure throws with nothing committed), then one
atomic batch of `set`s on fresh auto-id documents of the items' `history`
sub-collections appends every record. -/
def batchAddInventoryHistoryDocs (db : Db) (entries : List HistoryEntry) :
    Res × Db :=
  match validateHistoryEntries entries with
  | some e => (Res.err e, db)
  | none => (Res.ok, { db with history := db.history ++ entries })

/-! ### EmailService -/

/-- `EmailService.generateOrderEmailContent`, keeping the fields the
subject/body interpolate; the surrounding HTML boilerplate is abstracted to
the interpolated data. -/
def generateOrderEmailSubject (restaurant : Restaurant) (order : Order)
    (supplier : Supplier) : String :=
  restaurant.name ++ " - Pedido - " ++ supplier.name ++ " - " ++ order.id

/-- Body counterpart of `generateOrderEmailContent`. -/
def generateOrderEmailHtml (restaurant : Restaurant) (order : Order) : String :=
  "Nueva Orden de The Window " ++ order.id ++ " " ++ restaurant.address

/-- `EmailService.createOrderEmail` followed by `createEmail` /
`addEmailDoc`: re-fetches the supplier, requires an email contact method
with at least one address, then adds a document to the `emails` collection
with a fresh auto-generated id.  The document carries `orderId` but no
`restaurantId` and no `delivery` sub-record. -/
def createOrderEmail (db : Db) (restaurant : Restaurant) (order : Order) :
    Res × Db :=
  match findSupplier db.suppliers order.supplierId with
  | none => (Res.err "Supplier does not have email contact method", db)
  | some supplier =>
    match supplier.contactMethod with
    | none => (Res.err "Supplier does not have email contact method", db)
    | some cm =>
      if cm.type = "email" ∧ cm.emails ≠ [] then
        (Res.ok, { db with emails := db.emails ++
          [{ id := "email-" ++ toString db.emails.length,
             toAddr := "diegoolalde@gmail.com",
             cc := ["diegoolalde@gmail.com", "lucia_88@live.com"],
             subject := generateOrderEmailSubject restaurant order supplier,
             html := generateOrderEmailHtml restaurant order,
             orderId := some order.id,
             restaurantId := none,
             deliveryState := none }] })
      else (Res.err "Supplier does not have email contact method", db)

/-! ### OrdersService -/

/-- `OrdersService.sendOrder`: requires the restaurant, the order in status
`pending`, and a supplier whose preferred contact method is email; then
creates the order email and marks the order `sent`. -/
def sendOrder (db : Db) (orderId : String) (now : Int) : Res × Db :=
  match db.restaurant with
  | none => (Res.err "Restaurant not found", db)
  | some restaurant =>
    match findOrder db.orders orderId with
    | none => (Res.err "Order not found", db)
    | some order =>
      if order.status ≠ OrderStatus.pending then
        (Res.err "Only pending orders can be sent", db)
      else
        match findSupplier db.suppliers order.supplierId with
        | none => (Res.err "Supplier not found", db)
        | some supplier =>
          if (match supplier.contactMethod with
              | some cm => decide (cm.type = "email")
              | none => false) then
            match createOrderEmail db restaurant order with
            | (Res.err e, db1) => (Res.err e, db1)
            | (Res.ok, db1) =>
              updateOrderDocStatus db1 orderId OrderStatus.sent now
          else (Res.err "Invalid supplier contact method", db)

/-- The inventory-update list `recordOrderDelivery` maps out of the received
items: for each entry the new quantity is the snapshot quantity plus the
received quantity.  When an entry's id has no matching inventory record,
`itemsById[item.id]` is `undefined` and reading `.currentQuantity` throws,
so the whole construction fails. -/
def buildInventoryUpdates (items : List InventoryItem) (now : Int) :
    List ReceivedItem → Option (List InventoryUpdate)
  | [] => some []
  | r :: rest =>
    match lookupItem items r.id with
    | none => none
    | some inv =>
      match buildInventoryUpdates items now rest with
      | none => none
      | some us =>
        some ({ id := r.id,
                currentQuantity := inv.currentQuantity + r.quantity,
                lastUpdated := now } :: us)

/-- `OrdersService.recordOrderDelivery`: checks the order exists and is not
yet delivered; snapshots the inventory; writes the order once with the
received quantities merged into its items and status `delivered`; commits
the quantity batch; commits the history batch.  The three write groups are
issued sequentially and are not one cross-collection transaction. -/
def recordOrderDelivery (db : Db) (orderId : String)
    (receivedItems : List ReceivedItem) (now : Int) : Res × Db :=
  match findOrder db.orders orderId with
  | none => (Res.err "Order not found", db)
  | some order =>
    if order.status = OrderStatus.delivered then
      (Res.err "Order already delivered", db)
    else
      let items := db.inventory
      let updatedItems := order.items.map (fun it =>
        { it with receivedQuantity := (lookupReceived receivedItems it.id).getD 0 })
      match updateOrder db orderId updatedItems OrderStatus.delivered with
      | (Res.err e, db1) => (Res.err e, db1)
      | (Res.ok, db1) =>
        match buildInventoryUpdates items now receivedItems with
        | none =>
          (Res.err "TypeError: cannot read currentQuantity of undefined", db1)
        | some us =>
          match batchUpdateInventoryDocs db1 us with
          | (Res.err e, db2) => (Res.err e, db2)
          | (Res.ok, db2) =>
            batchAddInventoryHistoryDocs db2 (receivedItems.map (fun r =>
              { itemId := r.id,
                record := { date := now, amount := r.quantity,
                            type := HistoryType.receivedOrder } }))

/-! ### Callable wrappers and triggers (`index.ts`) -/

/-- The `updateOrderStatus` callable: rejects `delivered` outright, then
delegates to `updateOrderDocStatus`. -/
def updateOrderStatus (db : Db) (orderId : String) (status : OrderStatus)
    (now : Int) : Res × Db :=
  if status = OrderStatus.delivered then
    (Res.err "Order status can not be updated to delivered", db)
  else
    updateOrderDocStatus db orderId status now

/-- The `onEmailDeliveryStatusUpdate` document-write trigger: reads the
written email document and, when its delivery state is `SUCCESS` and it
carries truthy `restaurantId` and `orderId` fields, sets the referenced
order's status to `confirmed`.  All other shapes complete without acting. -/
def onEmailDeliveryStatusUpdate (db : Db) (emailId : String) (now : Int) :
    Res × Db :=
  match findEmail db.emails emailId with
  | none => (Res.ok, db)
  | some email =>
    match email.deliveryState, email.restaurantId, email.orderId with
    | some st, some _, some oid =>
      if st = "SUCCESS" then
        updateOrderDocStatus db oid OrderStatus.confirmed now
      else (Res.ok, db)
    | _, _, _ => (Res.ok, db)

/-! ### InventoryMonitoringService -/

/-- `InventoryMonitoringService.getFrequencyInDays`: daily → 1, weekly → 7,
monthly → 30, anything else defaults to 1. -/
def getFrequencyInDays (frequency : String) : Int :=
  if frequency = "daily" then 1
  else if frequency = "weekly" then 7
  else if frequency = "monthly" then 30
  else 1

/-- Whole days elapsed since the last update:
`Math.floor((now - lastUpdate) / (1000 * 60 * 60 * 24))`. -/
def daysSinceUpdate (now lastUpdate : Int) : Int :=
  Int.fdiv (now - lastUpdate) 86400000

/-- The filter predicate of `checkOutdatedItems`: items missing
`lastUpdated` or `updateFrequency` are skipped; otherwise the item is
outdated when the required cadence is at most the elapsed whole days. -/
def isOutdated (now : Int) (item : InventoryItem) : Bool :=
  match item.lastUpdated, item.updateFrequency with
  | some lu, some f =>
    decide (getFrequencyInDays f ≤ daysSinceUpdate now lu)
  | _, _ => false

/-- `InventoryMonitoringService.checkOutdatedItems`, restricted to the set
of items it flags (when the result is non-empty the service additionally
sends one consolidated reminder email; it performs no persistence writes). -/
def checkOutdatedItems (now : Int) (items : List InventoryItem) :
    List InventoryItem :=
  items.filter (isOutdated now)

/-! ### Concrete fixtures for the scenario theorems -/

/-- Inventory item `A` with 5 units on hand. -/
def itemA : InventoryItem :=
  { id := "A", restaurantId := "r1", name := "Apples", currentQuantity := 5,
    minimumQuantity := 1, unit := "kg", lastUpdated := some 0,
    updateFrequency := some "weekly" }

/-- Order line item for `A`. -/
def orderItemA : OrderItem :=
  { id := "A", name := "Apples", currentQuantity := 5, orderQuantity := 10,
    receivedQuantity := 0, unit := "kg" }

/-- A pending order `o1` over item `A`. -/
def baseOrder : Order :=
  { id := "o1", restaurantId := "r1", supplierId := "s1",
    supplierName := "Sup", items := [orderItemA],
    status := OrderStatus.pending, createdAt := 0, expectedDelivery := 0,
    cancelledAt := none, lastUpdated := none }

/-- The restaurant document of the fixture tenant. -/
def theRestaurant : Restaurant :=
  { id := "r1", name := "The Window", address := "Calle" }

/-- Fixture store: one restaurant, one inventory item, one pending order. -/
def baseDb : Db :=
  { restaurant := some theRestaurant, inventory := [itemA],
    orders := [baseOrder], suppliers := [], history := [], emails := [] }

/-- Fixture store whose only order is already cancelled. -/
def cancelledDb : Db :=
  { baseDb with orders := [{ baseOrder with status := OrderStatus.cancelled }] }

/-- Fixture store whose only order is already delivered. -/
def deliveredDb : Db :=
  { baseDb with orders := [{ baseOrder with status := OrderStatus.delivered }] }

/-- A second inventory item `B`, not among the fixture order's line items. -/
def itemB : InventoryItem :=
  { id := "B", restaurantId := "r1", name := "Bread", currentQuantity := 1,
    minimumQuantity := 1, unit := "units", lastUpdated := some 0,
    updateFrequency := some "daily" }

/-- Fixture store with two inventory items but an order over `A` only. -/
def twoItemDb : Db :=
  { baseDb with inventory := [itemA, itemB] }

/-- Fixture store whose only order is already sent, together with a
successfully delivered order email referencing it. -/
def sentWithEmailDb : Db :=
  { baseDb with
    orders := [{ baseOrder with status := OrderStatus.sent }],
    emails := [{ id := "e1", toAddr := "diegoolalde@gmail.com", cc := [],
                 subject := "s", html := "h", orderId := some "o1",
                 restaurantId := some "r1", deliveryState := some "SUCCESS" }] }

/-! ### Lookup and batch lemmas -/

theorem findOrder_some_id {orders : List Order} {x : String} {o : Order}
    (h : findOrder orders x = some o) : o.id = x := by
  induction orders with
  | nil => exact absurd h (by simp [findOrder])
  | cons a rest ih =>
    rw [findOrder] at h
    split at h
    · injection h with h2
      subst h2
      assumption
    · exact ih h

theorem findOrder_map {orders : List Order} {g : Order → Order}
    (hg : ∀ o, (g o).id = o.id) (x : String) :
    findOrder (orders.map g) x = (findOrder orders x).map g := by
  induction orders with
  | nil => simp [findOrder]
  | cons a rest ih =>
    simp only [List.map_cons, findOrder, hg a]
    by_cases h : a.id = x
    · simp [h]
    · simp [h, ih]

theorem lookupItem_some_id {items : List InventoryItem} {x : String}
    {it : InventoryItem} (h : lookupItem items x = some it) : it.id = x := by
  induction items with
  | nil => exact absurd h (by simp [lookupItem])
  | cons a rest ih =>
    rw [lookupItem] at h
    cases hr : lookupItem rest x with
    | some r =>
      simp only [hr] at h
      injection h with h2
      subst h2
      exact ih hr
    | none =>
      simp only [hr] at h
      split at h
      · injection h with h2
        subst h2
        assumption
      · exact absurd h (by simp)

theorem lookupItem_eq_none {items : List InventoryItem} {x : String}
    (h : ∀ it ∈ items, it.id ≠ x) : lookupItem items x = none := by
  induction items with
  | nil => rfl
  | cons a rest ih =>
    rw [lookupItem]
    rw [ih (fun it hit => h it (List.mem_cons_of_mem a hit))]
    simp [h a (List.mem_cons_self a rest)]

theorem lookupItem_self {items : List InventoryItem}
    (hnd : items.Pairwise (fun a b => a.id ≠ b.id)) :
    ∀ it ∈ items, lookupItem items it.id = some it := by
  induction items with
  | nil => simp
  | cons a rest ih =>
    intro it hmem
    obtain ⟨h1, h2⟩ := List.pairwise_cons.mp hnd
    rcases List.mem_cons.mp hmem with rfl | hmem'
    · rw [lookupItem, lookupItem_eq_none (fun b hb hbe => h1 b hb hbe.symm)]
      simp
    · rw [lookupItem, ih h2 it hmem']

theorem lookupItem_map {items : List InventoryItem}
    {g : InventoryItem → InventoryItem} (hg : ∀ it, (g it).id = it.id)
    (x : String) :
    lookupItem (items.map g) x = (lookupItem items x).map g := by
  induction items with
  | nil => simp [lookupItem]
  | cons a rest ih =>
    simp only [List.map_cons, lookupItem, ih]
    cases hr : lookupItem rest x with
    | some r => simp
    | none =>
      simp only [Option.map_none']
      rw [hg a]
      by_cases h : a.id = x
      · simp [h]
      · simp [h]

theorem lookupReceived_eq_none_forall {recv : List ReceivedItem} {x : String}
    (h : lookupReceived recv x = none) : ∀ r ∈ recv, r.id ≠ x := by
  induction recv with
  | nil => simp
  | cons r rest ih =>
    rw [lookupReceived] at h
    cases hr : lookupReceived rest x with
    | some q => simp [hr] at h
    | none =>
      simp only [hr] at h
      split at h
      · exact absurd h (by simp)
      · intro r' hmem
        rcases List.mem_cons.mp hmem with rfl | hmem'
        · assumption
        · exact ih hr r' hmem'

theorem lookupReceived_none_of_forall {recv : List ReceivedItem} {x : String}
    (h : ∀ r ∈ recv, r.id ≠ x) : lookupReceived recv x = none := by
  induction recv with
  | nil => rfl
  | cons r rest ih =>
    rw [lookupReceived]
    rw [ih (fun r' hr' => h r' (List.mem_cons_of_mem r hr'))]
    simp [h r (List.mem_cons_self r rest)]

theorem lookupReceived_self {recv : List ReceivedItem}
    (hnd : recv.Pairwise (fun a b => a.id ≠ b.id)) :
    ∀ r ∈ recv, lookupReceived recv r.id = some r.quantity := by
  induction recv with
  | nil => simp
  | cons a rest ih =>
    intro r hmem
    obtain ⟨h1, h2⟩ := List.pairwise_cons.mp hnd
    rcases List.mem_cons.mp hmem with rfl | hmem'
    · rw [lookupReceived,
        lookupReceived_none_of_forall (fun b hb hbe => h1 b hb hbe.symm)]
      simp
    · rw [lookupReceived, ih h2 r hmem']

theorem lookupReceived_eq_findReceived {recv : List ReceivedItem}
    (hnd : recv.Pairwise (fun a b => a.id ≠ b.id)) (x : String) :
    lookupReceived recv x = (findReceived recv x).map (fun r => r.quantity) := by
  induction recv with
  | nil => simp [lookupReceived, findReceived]
  | cons r rest ih =>
    obtain ⟨h1, h2⟩ := List.pairwise_cons.mp hnd
    rw [lookupReceived, findReceived]
    by_cases h : r.id = x
    · rw [lookupReceived_none_of_forall (fun b hb hbe => h1 b hb (h.trans hbe.symm))]
      simp [h]
    · rw [ih h2]
      cases hr : findReceived rest x with
      | some r' => simp [h, hr]
      | none => simp [h, hr]

theorem applyUpdatesTo_id (us : List InventoryUpdate) (it : InventoryItem) :
    (applyUpdatesTo us it).id = it.id := by
  induction us generalizing it with
  | nil => rfl
  | cons u rest ih =>
    simp only [applyUpdatesTo, List.foldl_cons]
    by_cases h : it.id = u.id
    · rw [if_pos h]
      exact (ih _).trans rfl
    · rw [if_neg h]
      exact ih it

theorem applyUpdatesTo_cons (u : InventoryUpdate) (us : List InventoryUpdate)
    (it : InventoryItem) :
    applyUpdatesTo (u :: us) it
      = applyUpdatesTo us (if it.id = u.id then
          { it with currentQuantity := u.currentQuantity,
                    lastUpdated := some u.lastUpdated }
        else it) := rfl

theorem foldl_applyInventoryUpdate_eq_map (us : List InventoryUpdate)
    (items : List InventoryItem) :
    us.foldl applyInventoryUpdate items = items.map (applyUpdatesTo us) := by
  induction us generalizing items with
  | nil =>
    simp only [List.foldl_nil]
    rw [show applyUpdatesTo [] = id from rfl, List.map_id]
  | cons u rest ih =>
    calc (u :: rest).foldl applyInventoryUpdate items
        = rest.foldl applyInventoryUpdate (applyInventoryUpdate items u) := by
          simp
      _ = (applyInventoryUpdate items u).map (applyUpdatesTo rest) := ih _
      _ = items.map (applyUpdatesTo (u :: rest)) := by
          simp only [applyInventoryUpdate, List.map_map]
          rfl

theorem lookupItem_after_batch (us : List InventoryUpdate)
    (items : List InventoryItem) (x : String) :
    lookupItem (us.foldl applyInventoryUpdate items) x
      = (lookupItem items x).map (applyUpdatesTo us) := by
  rw [foldl_applyInventoryUpdate_eq_map]
  exact lookupItem_map (fun it => applyUpdatesTo_id us it) x

theorem applyUpdatesTo_skip {us : List InventoryUpdate} {it : InventoryItem}
    (h : ∀ u ∈ us, u.id ≠ it.id) : applyUpdatesTo us it = it := by
  induction us with
  | nil => rfl
  | cons u rest ih =>
    simp only [applyUpdatesTo, List.foldl_cons]
    rw [if_neg (fun he => (h u (List.mem_cons_self u rest)) he.symm)]
    exact ih (fun u' hu' => h u' (List.mem_cons_of_mem u hu'))

theorem buildInventoryUpdates_mem {items : List InventoryItem} {now : Int}
    {recv : List ReceivedItem} {us : List InventoryUpdate}
    (hb : buildInventoryUpdates items now recv = some us) :
    ∀ u ∈ us, ∃ r ∈ recv, ∃ inv : InventoryItem,
      u.id = r.id ∧ lookupItem items r.id = some inv ∧
      u.currentQuantity = inv.currentQuantity + r.quantity := by
  induction recv generalizing us with
  | nil =>
    rw [buildInventoryUpdates] at hb
    injection hb with h2
    subst h2
    simp
  | cons r rest ih =>
    rw [buildInventoryUpdates] at hb
    cases hl : lookupItem items r.id with
    | none =>
      simp only [hl] at hb
      exact Option.noConfusion hb
    | some inv =>
      simp only [hl] at hb
      cases hb2 : buildInventoryUpdates items now rest with
      | none =>
        simp only [hb2] at hb
        exact Option.noConfusion hb
      | some us' =>
        simp only [hb2] at hb
        injection hb with h2
        subst h2
        intro u hu
        rcases List.mem_cons.mp hu with rfl | hu'
        · exact ⟨r, List.mem_cons_self r rest, inv, rfl, hl, rfl⟩
        · obtain ⟨r', hr', inv', ha, hb3, hc⟩ := ih hb2 u hu'
          exact ⟨r', List.mem_cons_of_mem r hr', inv', ha, hb3, hc⟩

theorem buildInventoryUpdates_none {items : List InventoryItem} {now : Int}
    {recv : List ReceivedItem} {r : ReceivedItem} (hmem : r ∈ recv)
    (hmiss : lookupItem items r.id = none) :
    buildInventoryUpdates items now recv = none := by
  induction recv with
  | nil => exact absurd hmem (by simp)
  | cons a rest ih =>
    rw [buildInventoryUpdates]
    rcases List.mem_cons.mp hmem with rfl | hmem'
    · simp [hmiss]
    · cases hl : lookupItem items a.id with
      | none => rfl
      | some inv => simp [hl, ih hmem']

theorem applyUpdatesTo_build {items : List InventoryItem} {now : Int}
    {recv : List ReceivedItem} {us : List InventoryUpdate} {x : String}
    {q : Int} {pre : InventoryItem}
    (hb : buildInventoryUpdates items now recv = some us)
    (hq : lookupReceived recv x = some q)
    (hpre : lookupItem items x = some pre) :
    ∀ a : InventoryItem, a.id = x →
      (applyUpdatesTo us a).currentQuantity = pre.currentQuantity + q := by
  induction recv generalizing us with
  | nil => exact absurd hq (by simp [lookupReceived])
  | cons r rest ih =>
    rw [buildInventoryUpdates] at hb
    cases hl : lookupItem items r.id with
    | none =>
      simp only [hl] at hb
      exact Option.noConfusion hb
    | some inv =>
      simp only [hl] at hb
      cases hb2 : buildInventoryUpdates items now rest with
      | none =>
        simp only [hb2] at hb
        exact Option.noConfusion hb
      | some us' =>
        simp only [hb2] at hb
        injection hb with h2
        subst h2
        rw [lookupReceived] at hq
        cases hq2 : lookupReceived rest x with
        | some q' =>
          simp only [hq2] at hq
          injection hq with h3
          subst h3
          intro a ha
          rw [applyUpdatesTo_cons]
          by_cases hc : a.id = r.id
          · rw [if_pos hc]
            exact ih hb2 hq2 _ ha
          · rw [if_neg hc]
            exact ih hb2 hq2 a ha
        | none =>
          simp only [hq2] at hq
          by_cases hrx : r.id = x
          · rw [if_pos hrx] at hq
            injection hq with h3
            subst h3
            intro a ha
            have hinv : inv = pre := by
              rw [hrx] at hl
              rw [hl] at hpre
              injection hpre
            rw [applyUpdatesTo_cons]
            rw [if_pos (show a.id = r.id from ha.trans hrx.symm)]
            have hskip : ∀ u ∈ us', u.id ≠ x := by
              intro u hu
              obtain ⟨r', hr', inv', hid, _, _⟩ :=
                buildInventoryUpdates_mem hb2 u hu
              rw [hid]
              exact lookupReceived_eq_none_forall hq2 r' hr'
            refine Eq.trans
              (congrArg InventoryItem.currentQuantity (applyUpdatesTo_skip ?_)) ?_
            · intro u hu h
              exact hskip u hu (h.trans ha)
            · show inv.currentQuantity + r.quantity
                = pre.currentQuantity + r.quantity
              rw [hinv]
          · rw [if_neg hrx] at hq
            exact absurd hq (by simp)

theorem applyUpdatesTo_mono {us : List InventoryUpdate} {it : InventoryItem}
    {base : Int}
    (h : ∀ u ∈ us, u.id = it.id → base ≤ u.currentQuantity)
    (h0 : base ≤ it.currentQuantity) :
    base ≤ (applyUpdatesTo us it).currentQuantity := by
  induction us generalizing it with
  | nil => exact h0
  | cons u rest ih =>
    simp only [applyUpdatesTo, List.foldl_cons]
    by_cases hc : it.id = u.id
    · rw [if_pos hc]
      refine ih ?_ ?_
      · intro u' hu' hid
        exact h u' (List.mem_cons_of_mem u hu') hid
      · exact h u (List.mem_cons_self u rest) hc.symm
    · rw [if_neg hc]
      exact ih (fun u' hu' hid => h u' (List.mem_cons_of_mem u hu') hid) h0

/-! ### Operation-level inversion lemmas -/

theorem updateOrderDocStatus_found {db : Db} {id : String} {o : Order}
    (hf : findOrder db.orders id = some o) (status : OrderStatus) (now : Int) :
    updateOrderDocStatus db id status now =
      (Res.ok, { db with orders := db.orders.map (fun o2 =>
        if o2.id = id then { o2 with status := status, lastUpdated := some now }
        else o2) }) := by
  unfold updateOrderDocStatus
  rw [hf]
  rfl

theorem updateOrder_err {db : Db} {orderId : String}
    {newItems : List OrderItem} {e : String}
    (hv : validateOrderPatch newItems = some e) (newStatus : OrderStatus) :
    updateOrder db orderId newItems newStatus = (Res.err e, db) := by
  unfold updateOrder
  rw [hv]

theorem updateOrder_ok {db : Db} {orderId : String} {o : Order}
    {newItems : List OrderItem}
    (hv : validateOrderPatch newItems = none)
    (hf : findOrder db.orders orderId = some o) (newStatus : OrderStatus) :
    updateOrder db orderId newItems newStatus =
      (Res.ok, { db with orders := db.orders.map (fun o2 =>
        if o2.id = orderId then
          { o2 with items := newItems, status := newStatus }
        else o2) }) := by
  unfold updateOrder
  rw [hv, hf]
  rfl

theorem batchUpdateInventoryDocs_cases (db : Db) (us : List InventoryUpdate) :
    batchUpdateInventoryDocs db us
        = (Res.ok,
           { db with inventory := us.foldl applyInventoryUpdate db.inventory })
    ∨ ((batchUpdateInventoryDocs db us).1 ≠ Res.ok
       ∧ (batchUpdateInventoryDocs db us).2 = db) := by
  unfold batchUpdateInventoryDocs
  split
  · right; exact ⟨by simp, rfl⟩
  · split
    · left; rfl
    · right; exact ⟨by simp, rfl⟩

theorem createOrderEmail_snd_fields (db : Db) (restaurant : Restaurant)
    (order : Order) :
    ((createOrderEmail db restaurant order).2).orders = db.orders ∧
    ((createOrderEmail db restaurant order).2).inventory = db.inventory ∧
    ((createOrderEmail db restaurant order).2).history = db.history := by
  unfold createOrderEmail
  split
  · exact ⟨rfl, rfl, rfl⟩
  · split
    · exact ⟨rfl, rfl, rfl⟩
    · split
      · exact ⟨rfl, rfl, rfl⟩
      · exact ⟨rfl, rfl, rfl⟩

theorem validateHistoryEntries_none_cons {e : HistoryEntry}
    {rest : List HistoryEntry}
    (h : validateHistoryEntries (e :: rest) = none) :
    validateHistoryEntry e = none ∧ validateHistoryEntries rest = none := by
  rw [validateHistoryEntries] at h
  cases he : validateHistoryEntry e with
  | some msg =>
    simp only [he] at h
    exact Option.noConfusion h
  | none =>
    simp only [he] at h
    exact ⟨rfl, h⟩

theorem validateHistoryEntry_none_amount {e : HistoryEntry}
    (h : validateHistoryEntry e = none) : 0 ≤ e.record.amount := by
  unfold validateHistoryEntry at h
  split at h
  · exact absurd h (by simp)
  · split at h
    · exact absurd h (by simp)
    · rename_i h2
      exact le_of_not_lt h2

/-- A history batch that passes validation carries no negative received
quantity: the amount of each appended record is the payload quantity. -/
theorem deliveryHistoryEntries_amounts {recv : List ReceivedItem} {now : Int}
    (h : validateHistoryEntries (recv.map (fun r =>
        { itemId := r.id,
          record := { date := now, amount := r.quantity,
                      type := HistoryType.receivedOrder } })) = none) :
    ∀ r ∈ recv, 0 ≤ r.quantity := by
  induction recv with
  | nil => simp
  | cons a rest ih =>
    rw [List.map_cons] at h
    obtain ⟨h1, h2⟩ := validateHistoryEntries_none_cons h
    intro r hr
    rcases List.mem_cons.mp hr with rfl | hr'
    · exact validateHistoryEntry_none_amount h1
    · exact ih h2 r hr'

/-- Success inversion for `recordOrderDelivery`: a successful run found a
non-delivered order, resolved every received id against the inventory
snapshot, passed every validation — so in particular every received
quantity is nonnegative, by the history-batch amount check — and the final
state is the order write, the quantity batch and the history batch applied
in sequence to the initial state. -/
theorem recordOrderDelivery_ok_inv {db : Db} {orderId : String}
    {recv : List ReceivedItem} {now : Int}
    (h : (recordOrderDelivery db orderId recv now).1 = Res.ok) :
    ∃ order us,
      findOrder db.orders orderId = some order ∧
      order.status ≠ OrderStatus.delivered ∧
      buildInventoryUpdates db.inventory now recv = some us ∧
      (recordOrderDelivery db orderId recv now).2 =
        { db with
          orders := db.orders.map (fun o =>
            if o.id = orderId then
              { o with
                items := order.items.map (fun it =>
                  { it with receivedQuantity :=
                      (lookupReceived recv it.id).getD 0 }),
                status := OrderStatus.delivered }
            else o),
          inventory := us.foldl applyInventoryUpdate db.inventory,
          history := db.history ++ recv.map (fun r =>
            { itemId := r.id,
              record := { date := now, amount := r.quantity,
                          type := HistoryType.receivedOrder } }) } ∧
      (∀ r ∈ recv, 0 ≤ r.quantity) := by
  revert h
  unfold recordOrderDelivery
  cases hf : findOrder db.orders orderId with
  | none => intro h; exact absurd h (by simp)
  | some order =>
    simp only []
    by_cases hs : order.status = OrderStatus.delivered
    · rw [if_pos hs]; intro h; exact absurd h (by simp)
    · rw [if_neg hs]
      cases hv : validateOrderPatch (order.items.map (fun it =>
          { it with receivedQuantity :=
              (lookupReceived recv it.id).getD 0 })) with
      | some e =>
        simp only [updateOrder_err hv OrderStatus.delivered]
        intro h; exact absurd h (by simp)
      | none =>
        simp only [updateOrder_ok hv hf OrderStatus.delivered]
        cases hb : buildInventoryUpdates db.inventory now recv with
        | none => intro h; exact absurd h (by simp)
        | some us =>
          simp only []
          rcases batchUpdateInventoryDocs_cases
              { db with orders := db.orders.map (fun o =>
                  if o.id = orderId then
                    { o with
                      items := order.items.map (fun it =>
                        { it with receivedQuantity :=
                            (lookupReceived recv it.id).getD 0 }),
                      status := OrderStatus.delivered }
                  else o) } us with hbc | ⟨hne, _⟩
          · simp only [hbc]
            cases hh : validateHistoryEntries (recv.map (fun r =>
                { itemId := r.id,
                  record := { date := now, amount := r.quantity,
                              type := HistoryType.receivedOrder } })) with
            | some msg =>
              simp only [batchAddInventoryHistoryDocs, hh]
              intro h; exact absurd h (by simp)
            | none =>
              simp only [batchAddInventoryHistoryDocs, hh]
              intro _
              exact ⟨order, us, rfl, hs, rfl, rfl,
                deliveryHistoryEntries_amounts hh⟩
          · cases hp : batchUpdateInventoryDocs
                { db with orders := db.orders.map (fun o =>
                    if o.id = orderId then
                      { o with
                        items := order.items.map (fun it =>
                          { it with receivedQuantity :=
                              (lookupReceived recv it.id).getD 0 }),
                        status := OrderStatus.delivered }
                    else o) } us with
            | mk r2 db2 =>
              rw [hp] at hne
              cases r2 with
              | ok => exact absurd rfl hne
              | err e => intro h; exact absurd h (by simp)

/-- Success inversion for `sendOrder`: the order was pending, and afterwards
it is stored with status `sent` and a refreshed `lastUpdated`. -/
theorem sendOrder_ok_inv {db : Db} {orderId : String} {now : Int} {o : Order}
    (hf : findOrder db.orders orderId = some o)
    (h : (sendOrder db orderId now).1 = Res.ok) :
    o.status = OrderStatus.pending ∧
    findOrder ((sendOrder db orderId now).2).orders orderId
      = some { o with status := OrderStatus.sent, lastUpdated := some now } := by
  revert h
  unfold sendOrder
  cases hres : db.restaurant with
  | none => intro h; exact absurd h (by simp)
  | some restaurant =>
    simp only [hf]
    by_cases hp : o.status = OrderStatus.pending
    · rw [if_neg (not_not_intro hp)]
      cases hsup : findSupplier db.suppliers o.supplierId with
      | none => intro h; exact absurd h (by simp)
      | some supplier =>
        simp only []
        cases hcm : supplier.contactMethod with
        | none =>
          simp only []
          rw [if_neg (by simp)]
          intro h; exact absurd h (by simp)
        | some cm =>
          simp only []
          by_cases he : cm.type = "email"
          · rw [if_pos (by simp [he])]
            cases hce : createOrderEmail db restaurant o with
            | mk r1 db1 =>
              cases r1 with
              | err e => intro h; exact absurd h (by simp)
              | ok =>
                simp only []
                have horders : db1.orders = db.orders := by
                  have h2 := (createOrderEmail_snd_fields db restaurant o).1
                  rw [hce] at h2
                  exact h2
                have hf1 : findOrder db1.orders orderId = some o := by
                  rw [horders]; exact hf
                rw [updateOrderDocStatus_found hf1 OrderStatus.sent now]
                intro _
                refine ⟨hp, ?_⟩
                have hg : ∀ o2 : Order,
                    ((fun o3 : Order => if o3.id = orderId then
                        { o3 with status := OrderStatus.sent,
                                  lastUpdated := some now }
                      else o3) o2).id = o2.id := by
                  intro o2
                  by_cases h2 : o2.id = orderId <;> simp [h2]
                rw [findOrder_map hg orderId, hf1]
                simp [findOrder_some_id hf]
          · rw [if_neg (by simp [he])]
            intro h; exact absurd h (by simp)
    · rw [if_pos hp]
      intro h; exact absurd h (by simp)

/-- Success inversion for `cancelOrder`: the order was neither delivered nor
cancelled, and afterwards it is stored with status `cancelled` and a
cancellation timestamp. -/
theorem cancelOrder_ok_inv {db : Db} {orderId : String} {now : Int} {o : Order}
    (hf : findOrder db.orders orderId = some o)
    (h : (cancelOrder db orderId now).1 = Res.ok) :
    (o.status ≠ OrderStatus.delivered ∧ o.status ≠ OrderStatus.cancelled) ∧
    findOrder ((cancelOrder db orderId now).2).orders orderId
      = some { o with status := OrderStatus.cancelled,
                      cancelledAt := some now } := by
  revert h
  unfold cancelOrder
  simp only [hf]
  by_cases hs : o.status = OrderStatus.delivered ∨ o.status = OrderStatus.cancelled
  · rw [if_pos hs]
    intro h; exact absurd h (by simp)
  · rw [if_neg hs]
    intro _
    rw [not_or] at hs
    refine ⟨hs, ?_⟩
    have hg : ∀ o2 : Order,
        ((fun o3 : Order => if o3.id = orderId then
            { o3 with status := OrderStatus.cancelled, cancelledAt := some now }
          else o3) o2).id = o2.id := by
      intro o2
      by_cases h2 : o2.id = orderId <;> simp [h2]
    rw [findOrder_map hg orderId, hf]
    simp [findOrder_some_id hf]

/-- Success inversion for the `updateOrderStatus` callable: the requested
status was not `delivered`, and it is written regardless of the current
status, together with a refreshed `lastUpdated`. -/
theorem updateOrderStatus_ok_inv {db : Db} {orderId : String}
    {st : OrderStatus} {now : Int} {o : Order}
    (hf : findOrder db.orders orderId = some o)
    (h : (updateOrderStatus db orderId st now).1 = Res.ok) :
    st ≠ OrderStatus.delivered ∧
    findOrder ((updateOrderStatus db orderId st now).2).orders orderId
      = some { o with status := st, lastUpdated := some now } := by
  revert h
  unfold updateOrderStatus
  by_cases hd : st = OrderStatus.delivered
  · rw [if_pos hd]
    intro h; exact absurd h (by simp)
  · rw [if_neg hd]
    rw [updateOrderDocStatus_found hf st now]
    intro _
    refine ⟨hd, ?_⟩
    have hg : ∀ o2 : Order,
        ((fun o3 : Order => if o3.id = orderId then
            { o3 with status := st, lastUpdated := some now }
          else o3) o2).id = o2.id := by
      intro o2
      by_cases h2 : o2.id = orderId <;> simp [h2]
    rw [findOrder_map hg orderId, hf]
    simp [findOrder_some_id hf]

/-! ### Email-trigger lemmas -/

theorem map_id_of_eq {l : List Order} {f : Order → Order}
    (h : ∀ o ∈ l, f o = o) : l.map f = l := by
  induction l with
  | nil => rfl
  | cons a rest ih =>
    simp only [List.map_cons]
    rw [h a (List.mem_cons_self a rest),
      ih (fun o ho => h o (List.mem_cons_of_mem a ho))]

theorem updateOrderDocStatus_notfound {db : Db} {id : String}
    (hf : findOrder db.orders id = none) (st : OrderStatus) (now : Int) :
    updateOrderDocStatus db id st now
      = (Res.err "NOT_FOUND: no document to update", db) := by
  unfold updateOrderDocStatus
  rw [hf]
  rfl

/-- When the written email has a `SUCCESS` delivery state and carries both
routing fields, the trigger is exactly the confirmed-status update. -/
theorem onEmail_act {db : Db} {emailId : String} {email : EmailDoc}
    {rid oid : String}
    (he : findEmail db.emails emailId = some email)
    (hst : email.deliveryState = some "SUCCESS")
    (hrid : email.restaurantId = some rid)
    (hoid : email.orderId = some oid) (now : Int) :
    onEmailDeliveryStatusUpdate db emailId now
      = updateOrderDocStatus db oid OrderStatus.confirmed now := by
  simp only [onEmailDeliveryStatusUpdate, he, hst, hrid, hoid]
  simp

/-- Either the written email fires the confirmation update, or the trigger
is a no-op for every invocation time. -/
theorem onEmail_cases (db : Db) (emailId : String) :
    (∃ email rid oid, findEmail db.emails emailId = some email ∧
       email.deliveryState = some "SUCCESS" ∧
       email.restaurantId = some rid ∧ email.orderId = some oid)
    ∨ (∀ now, onEmailDeliveryStatusUpdate db emailId now = (Res.ok, db)) := by
  cases he : findEmail db.emails emailId with
  | none =>
    right; intro now
    simp only [onEmailDeliveryStatusUpdate, he]
  | some email =>
    cases hst : email.deliveryState with
    | none =>
      right; intro now
      simp only [onEmailDeliveryStatusUpdate, he, hst]
    | some st =>
      cases hrid : email.restaurantId with
      | none =>
        right; intro now
        simp only [onEmailDeliveryStatusUpdate, he, hst, hrid]
      | some rid =>
        cases hoid : email.orderId with
        | none =>
          right; intro now
          simp only [onEmailDeliveryStatusUpdate, he, hst, hrid, hoid]
        | some oid =>
          by_cases hS : st = "SUCCESS"
          · subst hS
            exact Or.inl ⟨email, rid, oid, rfl, hst, hrid, hoid⟩
          · right; intro now
            simp only [onEmailDeliveryStatusUpdate, he, hst, hrid, hoid,
              if_neg hS]

/-- Claim C8 (amended): re-delivering the email-confirmation trigger with no
intervening change leaves every collection untouched and every order either
unchanged or changed only in its `lastUpdated` field, which is refreshed to
the re-delivery time; re-delivering with the same timestamp reproduces the
stored state exactly.  (The claim as stated — "no observable effect on the
order document" — fails because `updateOrderDocStatus` refreshes
`lastUpdated` on every application.) -/
theorem onEmailDeliveryStatusUpdate_redelivery (db : Db) (emailId : String)
    (t1 t2 : Int) :
    ((onEmailDeliveryStatusUpdate
        (onEmailDeliveryStatusUpdate db emailId t1).2 emailId t2).2).restaurant
      = ((onEmailDeliveryStatusUpdate db emailId t1).2).restaurant ∧
    ((onEmailDeliveryStatusUpdate
        (onEmailDeliveryStatusUpdate db emailId t1).2 emailId t2).2).inventory
      = ((onEmailDeliveryStatusUpdate db emailId t1).2).inventory ∧
    ((onEmailDeliveryStatusUpdate
        (onEmailDeliveryStatusUpdate db emailId t1).2 emailId t2).2).suppliers
      = ((onEmailDeliveryStatusUpdate db emailId t1).2).suppliers ∧
    ((onEmailDeliveryStatusUpdate
        (onEmailDeliveryStatusUpdate db emailId t1).2 emailId t2).2).history
      = ((onEmailDeliveryStatusUpdate db emailId t1).2).history ∧
    ((onEmailDeliveryStatusUpdate
        (onEmailDeliveryStatusUpdate db emailId t1).2 emailId t2).2).emails
      = ((onEmailDeliveryStatusUpdate db emailId t1).2).emails ∧
    List.Forall₂ (fun o1 o2 => o2 = o1 ∨ o2 = { o1 with lastUpdated := some t2 })
      ((onEmailDeliveryStatusUpdate db emailId t1).2).orders
      ((onEmailDeliveryStatusUpdate
          (onEmailDeliveryStatusUpdate db emailId t1).2 emailId t2).2).orders ∧
    (onEmailDeliveryStatusUpdate
        (onEmailDeliveryStatusUpdate db emailId t1).2 emailId t1).2
      = (onEmailDeliveryStatusUpdate db emailId t1).2 := by
  rcases onEmail_cases db emailId with ⟨email, rid, oid, he, hst, hrid, hoid⟩ | hinert
  · cases hf : findOrder db.orders oid with
    | none =>
      have h1 : (onEmailDeliveryStatusUpdate db emailId t1).2 = db := by
        rw [onEmail_act he hst hrid hoid t1, updateOrderDocStatus_notfound hf]
      rw [h1, onEmail_act he hst hrid hoid t2, updateOrderDocStatus_notfound hf,
        onEmail_act he hst hrid hoid t1, updateOrderDocStatus_notfound hf]
      exact ⟨rfl, rfl, rfl, rfl, rfl,
        List.forall₂_same.mpr (fun o _ => Or.inl rfl), rfl⟩
    | some o =>
      have h1 : (onEmailDeliveryStatusUpdate db emailId t1).2
          = { db with orders := db.orders.map (fun o3 =>
              if o3.id = oid then
                { o3 with status := OrderStatus.confirmed,
                          lastUpdated := some t1 }
              else o3) } := by
        rw [onEmail_act he hst hrid hoid t1,
          updateOrderDocStatus_found hf OrderStatus.confirmed t1]
      have he1 : findEmail
          ((onEmailDeliveryStatusUpdate db emailId t1).2).emails emailId
          = some email := by
        rw [h1]; exact he
      have hg1 : ∀ o2 : Order,
          ((fun o3 : Order => if o3.id = oid then
              { o3 with status := OrderStatus.confirmed,
                        lastUpdated := some t1 }
            else o3) o2).id = o2.id := by
        intro o2
        by_cases h2 : o2.id = oid <;> simp [h2]
      have hf1 : findOrder
          ((onEmailDeliveryStatusUpdate db emailId t1).2).orders oid
          = some { o with status := OrderStatus.confirmed,
                          lastUpdated := some t1 } := by
        simp only [h1]
        rw [findOrder_map hg1 oid, hf]
        simp [findOrder_some_id hf]
      have hstat : ∀ o1 ∈ ((onEmailDeliveryStatusUpdate db emailId t1).2).orders,
          o1.id = oid →
          o1.status = OrderStatus.confirmed ∧ o1.lastUpdated = some t1 := by
        intro o1 hmem ho
        simp only [h1] at hmem
        obtain ⟨a, ha, rfl⟩ := List.mem_map.mp hmem
        by_cases haid : a.id = oid
        · constructor <;> simp [haid]
        · rw [if_neg haid] at ho
          exact absurd ho haid
      have h2 : (onEmailDeliveryStatusUpdate
          ((onEmailDeliveryStatusUpdate db emailId t1).2) emailId t2).2
          = { (onEmailDeliveryStatusUpdate db emailId t1).2 with
              orders := ((onEmailDeliveryStatusUpdate db emailId t1).2).orders.map
                (fun o3 => if o3.id = oid then
                  { o3 with status := OrderStatus.confirmed,
                            lastUpdated := some t2 }
                else o3) } := by
        rw [onEmail_act he1 hst hrid hoid t2,
          updateOrderDocStatus_found hf1 OrderStatus.confirmed t2]
      have h3 : (onEmailDeliveryStatusUpdate
          ((onEmailDeliveryStatusUpdate db emailId t1).2) emailId t1).2
          = { (onEmailDeliveryStatusUpdate db emailId t1).2 with
              orders := ((onEmailDeliveryStatusUpdate db emailId t1).2).orders.map
                (fun o3 => if o3.id = oid then
                  { o3 with status := OrderStatus.confirmed,
                            lastUpdated := some t1 }
                else o3) } := by
        rw [onEmail_act he1 hst hrid hoid t1,
          updateOrderDocStatus_found hf1 OrderStatus.confirmed t1]
      refine ⟨?_, ?_, ?_, ?_, ?_, ?_, ?_⟩
      · rw [h2]
      · rw [h2]
      · rw [h2]
      · rw [h2]
      · rw [h2]
      · rw [h2]
        refine List.forall₂_map_right_iff.mpr (List.forall₂_same.mpr ?_)
        intro o1 hmem
        by_cases ho : o1.id = oid
        · exact Or.inr (by rw [if_pos ho, ← (hstat o1 hmem ho).1])
        · exact Or.inl (by rw [if_neg ho])
      · rw [h3]
        have hfix : ∀ o1 ∈ ((onEmailDeliveryStatusUpdate db emailId t1).2).orders,
            (if o1.id = oid then
              { o1 with status := OrderStatus.confirmed,
                        lastUpdated := some t1 }
            else o1) = o1 := by
          intro o1 hmem
          by_cases ho : o1.id = oid
          · rw [if_pos ho, ← (hstat o1 hmem ho).1, ← (hstat o1 hmem ho).2]
          · rw [if_neg ho]
        rw [map_id_of_eq hfix]
  · have h1 : (onEmailDeliveryStatusUpdate db emailId t1).2 = db := by
      rw [hinert t1]
    rw [h1, hinert t2, hinert t1]
    exact ⟨rfl, rfl, rfl, rfl, rfl,
      List.forall₂_same.mpr (fun o _ => Or.inl rfl), rfl⟩


/-! ### Claim theorems -/

/-- Claim C1 counterexample: a delivery payload that repeats item `A` with
quantities 0 and then 4 passes every validation and succeeds, the entry
with quantity 0 matches the existing item with pre-delivery quantity 5,
yet the post-delivery quantity is 9 = 5 + 4 — not 5 + 0 — so the claim's
per-entry equation fails for a non-last duplicate entry. -/
theorem recordOrderDelivery_per_entry_claim_cex :
    (recordOrderDelivery baseDb "o1"
      [{ id := "A", name := "Apples", quantity := 0, unit := "kg" },
       { id := "A", name := "Apples", quantity := 4, unit := "kg" }] 1000).1
      = Res.ok ∧
    ({ id := "A", name := "Apples", quantity := 0, unit := "kg" } : ReceivedItem)
      ∈ [({ id := "A", name := "Apples", quantity := 0, unit := "kg" } : ReceivedItem),
         { id := "A", name := "Apples", quantity := 4, unit := "kg" }] ∧
    (lookupItem baseDb.inventory "A").map (fun it => it.currentQuantity)
      = some 5 ∧
    (lookupItem (recordOrderDelivery baseDb "o1"
        [{ id := "A", name := "Apples", quantity := 0, unit := "kg" },
         { id := "A", name := "Apples", quantity := 4, unit := "kg" }] 1000).2.inventory
      "A").map (fun it => it.currentQuantity) = some 9 ∧
    ¬ ((9 : Int) = 5 + 0) := by decide

/-- Claim C1 (amended): for every successful `recordOrderDelivery` call on a
store whose inventory ids are distinct, each id occurring in the payload
that matches an existing item ends with currentQuantity equal to its
pre-delivery quantity plus the quantity of the **last** payload entry with
that id (duplicate entries are not summed), and no inventory item's
quantity is lower after the call than before it — every received quantity
of a successful call is nonnegative, because the history-batch validation
rejects negative amounts. -/
theorem recordOrderDelivery_inventory_reconciliation
    (db : Db) (orderId : String) (recv : List ReceivedItem) (now : Int)
    (hok : (recordOrderDelivery db orderId recv now).1 = Res.ok)
    (hnodup : db.inventory.Pairwise (fun a b => a.id ≠ b.id)) :
    (∀ x q pre, lookupReceived recv x = some q →
      lookupItem db.inventory x = some pre →
      (lookupItem ((recordOrderDelivery db orderId recv now).2).inventory x).map
          (fun it => it.currentQuantity)
        = some (pre.currentQuantity + q)) ∧
    (∀ pre ∈ db.inventory,
      ∃ post ∈ ((recordOrderDelivery db orderId recv now).2).inventory,
        post.id = pre.id ∧ pre.currentQuantity ≤ post.currentQuantity) := by
  obtain ⟨order, us, hford, hs, hb, hstate, hq0⟩ :=
    recordOrderDelivery_ok_inv hok
  constructor
  · intro x q pre hq hpre
    simp only [hstate]
    rw [lookupItem_after_batch, hpre]
    simp only [Option.map_some']
    rw [applyUpdatesTo_build hb hq hpre pre (lookupItem_some_id hpre)]
  · intro pre hpre
    simp only [hstate]
    refine ⟨applyUpdatesTo us pre, ?_, applyUpdatesTo_id us pre, ?_⟩
    · rw [foldl_applyInventoryUpdate_eq_map]
      exact List.mem_map_of_mem _ hpre
    · refine applyUpdatesTo_mono ?_ le_rfl
      intro u hu hid
      obtain ⟨r, hr, inv, huid, hlook, hqty⟩ := buildInventoryUpdates_mem hb u hu
      have hrid2 : r.id = pre.id := huid.symm.trans hid
      have hself : lookupItem db.inventory pre.id = some pre :=
        lookupItem_self hnodup pre hpre
      rw [hrid2] at hlook
      have hinv : inv = pre := Option.some.inj (hlook.symm.trans hself)
      rw [hqty, hinv]
      exact le_add_of_nonneg_right (hq0 r hr)

/-- Witness for the amended claim C1 at a concrete input. -/
theorem recordOrderDelivery_inventory_reconciliation_witness :
    (recordOrderDelivery baseDb "o1"
        [{ id := "A", name := "Apples", quantity := 3, unit := "kg" }] 1000).1
      = Res.ok ∧
    baseDb.inventory.Pairwise (fun a b => a.id ≠ b.id) ∧
    ((∀ x q pre,
        lookupReceived
            [{ id := "A", name := "Apples", quantity := 3, unit := "kg" }] x
          = some q →
        lookupItem baseDb.inventory x = some pre →
        (lookupItem ((recordOrderDelivery baseDb "o1"
            [{ id := "A", name := "Apples", quantity := 3, unit := "kg" }]
            1000).2).inventory x).map (fun it => it.currentQuantity)
          = some (pre.currentQuantity + q)) ∧
      (∀ pre ∈ baseDb.inventory,
        ∃ post ∈ ((recordOrderDelivery baseDb "o1"
            [{ id := "A", name := "Apples", quantity := 3, unit := "kg" }]
            1000).2).inventory,
          post.id = pre.id ∧ pre.currentQuantity ≤ post.currentQuantity)) :=
  ⟨by decide, by decide,
    recordOrderDelivery_inventory_reconciliation baseDb "o1"
      [{ id := "A", name := "Apples", quantity := 3, unit := "kg" }] 1000
      (by decide) (by decide)⟩

/-- Claim C2 counterexample: the generic status-update path moves an order
that is already `cancelled` (a terminal state) back to `pending`. -/
theorem updateOrderStatus_cancelled_to_pending_cex :
    (findOrder cancelledDb.orders "o1").map (fun o => o.status)
      = some OrderStatus.cancelled ∧
    (updateOrderStatus cancelledDb "o1" OrderStatus.pending 7).1 = Res.ok ∧
    (findOrder
        (updateOrderStatus cancelledDb "o1" OrderStatus.pending 7).2.orders
        "o1").map (fun o => o.status) = some OrderStatus.pending := by decide

/-- Claim C2 (amended): `sendOrder` succeeds only from `pending` and moves
the order to `sent`; `cancelOrder` succeeds only from a state that is
neither `delivered` nor `cancelled` and moves it to `cancelled`;
`recordOrderDelivery` succeeds only from a non-`delivered` state and moves
it to `delivered`; the generic `updateOrderStatus` never sets `delivered`
but otherwise writes the requested status regardless of the current one, so
it can move the status backward and can modify terminal orders; and the
email-delivery confirmation trigger sets `confirmed` whenever the written
email has a successful delivery state and both routing fields, again
regardless of the order's current status. -/
theorem order_status_transition_guards
    (db : Db) (id : String) (st : OrderStatus) (recv : List ReceivedItem)
    (now : Int) (o : Order) (eid rid : String) (email : EmailDoc)
    (hfind : findOrder db.orders id = some o) :
    ((sendOrder db id now).1 = Res.ok →
      o.status = OrderStatus.pending ∧
      ∃ o2, findOrder ((sendOrder db id now).2).orders id = some o2 ∧
        o2.status = OrderStatus.sent) ∧
    ((cancelOrder db id now).1 = Res.ok →
      (o.status ≠ OrderStatus.delivered ∧ o.status ≠ OrderStatus.cancelled) ∧
      ∃ o2, findOrder ((cancelOrder db id now).2).orders id = some o2 ∧
        o2.status = OrderStatus.cancelled) ∧
    ((recordOrderDelivery db id recv now).1 = Res.ok →
      o.status ≠ OrderStatus.delivered ∧
      ∃ o2, findOrder ((recordOrderDelivery db id recv now).2).orders id
          = some o2 ∧
        o2.status = OrderStatus.delivered) ∧
    ((updateOrderStatus db id st now).1 = Res.ok →
      st ≠ OrderStatus.delivered ∧
      ∃ o2, findOrder ((updateOrderStatus db id st now).2).orders id = some o2 ∧
        o2.status = st) ∧
    ((findEmail db.emails eid = some email ∧
        email.deliveryState = some "SUCCESS" ∧
        email.restaurantId = some rid ∧ email.orderId = some id) →
      ∃ o2, findOrder
          ((onEmailDeliveryStatusUpdate db eid now).2).orders id = some o2 ∧
        o2.status = OrderStatus.confirmed) := by
  refine ⟨?_, ?_, ?_, ?_, ?_⟩
  · intro h
    obtain ⟨hp, hpost⟩ := sendOrder_ok_inv hfind h
    exact ⟨hp, _, hpost, rfl⟩
  · intro h
    obtain ⟨hp, hpost⟩ := cancelOrder_ok_inv hfind h
    exact ⟨hp, _, hpost, rfl⟩
  · intro h
    obtain ⟨order, us, hford, hs, hb, hstate, _⟩ :=
      recordOrderDelivery_ok_inv h
    have horder : order = o := by
      rw [hfind] at hford
      exact (Option.some.inj hford).symm
    subst horder
    refine ⟨hs, ?_⟩
    have hg : ∀ o2 : Order,
        ((fun o3 : Order => if o3.id = id then
            { o3 with
              items := order.items.map (fun it =>
                { it with
                  receivedQuantity := (lookupReceived recv it.id).getD 0 }),
              status := OrderStatus.delivered }
          else o3) o2).id = o2.id := by
      intro o2
      by_cases h2 : o2.id = id <;> simp [h2]
    refine ⟨{ order with
      items := order.items.map (fun it =>
        { it with
          receivedQuantity := (lookupReceived recv it.id).getD 0 }),
      status := OrderStatus.delivered }, ?_, rfl⟩
    simp only [hstate]
    rw [findOrder_map hg id, hfind]
    simp [findOrder_some_id hfind]
  · intro h
    obtain ⟨hp, hpost⟩ := updateOrderStatus_ok_inv hfind h
    exact ⟨hp, _, hpost, rfl⟩
  · rintro ⟨he, hst2, hrid2, hoid2⟩
    have hstep : (onEmailDeliveryStatusUpdate db eid now).2
        = { db with orders := db.orders.map (fun o3 =>
            if o3.id = id then
              { o3 with status := OrderStatus.confirmed,
                        lastUpdated := some now }
            else o3) } := by
      rw [onEmail_act he hst2 hrid2 hoid2 now,
        updateOrderDocStatus_found hfind OrderStatus.confirmed now]
    have hg : ∀ o2 : Order,
        ((fun o3 : Order => if o3.id = id then
            { o3 with status := OrderStatus.confirmed,
                      lastUpdated := some now }
          else o3) o2).id = o2.id := by
      intro o2
      by_cases h2 : o2.id = id <;> simp [h2]
    refine ⟨{ o with status := OrderStatus.confirmed,
                     lastUpdated := some now }, ?_, rfl⟩
    simp only [hstep]
    rw [findOrder_map hg id, hfind]
    simp [findOrder_some_id hfind]

/-- Witness for the amended claim C2 at a concrete input. -/
theorem order_status_transition_guards_witness :
    findOrder sentWithEmailDb.orders "o1"
      = some { baseOrder with status := OrderStatus.sent } ∧
    (((sendOrder sentWithEmailDb "o1" 5).1 = Res.ok →
      ({ baseOrder with status := OrderStatus.sent } : Order).status
        = OrderStatus.pending ∧
      ∃ o2, findOrder ((sendOrder sentWithEmailDb "o1" 5).2).orders "o1"
          = some o2 ∧
        o2.status = OrderStatus.sent) ∧
    ((cancelOrder sentWithEmailDb "o1" 5).1 = Res.ok →
      (({ baseOrder with status := OrderStatus.sent } : Order).status
          ≠ OrderStatus.delivered ∧
        ({ baseOrder with status := OrderStatus.sent } : Order).status
          ≠ OrderStatus.cancelled) ∧
      ∃ o2, findOrder ((cancelOrder sentWithEmailDb "o1" 5).2).orders "o1"
          = some o2 ∧
        o2.status = OrderStatus.cancelled) ∧
    ((recordOrderDelivery sentWithEmailDb "o1" [] 5).1 = Res.ok →
      ({ baseOrder with status := OrderStatus.sent } : Order).status
        ≠ OrderStatus.delivered ∧
      ∃ o2, findOrder
          ((recordOrderDelivery sentWithEmailDb "o1" [] 5).2).orders "o1"
          = some o2 ∧
        o2.status = OrderStatus.delivered) ∧
    ((updateOrderStatus sentWithEmailDb "o1" OrderStatus.sent 5).1 = Res.ok →
      OrderStatus.sent ≠ OrderStatus.delivered ∧
      ∃ o2, findOrder
          ((updateOrderStatus sentWithEmailDb "o1" OrderStatus.sent 5).2).orders
          "o1" = some o2 ∧
        o2.status = OrderStatus.sent) ∧
    ((findEmail sentWithEmailDb.emails "e1"
        = some { id := "e1", toAddr := "diegoolalde@gmail.com", cc := [],
                 subject := "s", html := "h", orderId := some "o1",
                 restaurantId := some "r1", deliveryState := some "SUCCESS" } ∧
        ({ id := "e1", toAddr := "diegoolalde@gmail.com", cc := [],
           subject := "s", html := "h", orderId := some "o1",
           restaurantId := some "r1", deliveryState := some "SUCCESS" } :
          EmailDoc).deliveryState = some "SUCCESS" ∧
        ({ id := "e1", toAddr := "diegoolalde@gmail.com", cc := [],
           subject := "s", html := "h", orderId := some "o1",
           restaurantId := some "r1", deliveryState := some "SUCCESS" } :
          EmailDoc).restaurantId = some "r1" ∧
        ({ id := "e1", toAddr := "diegoolalde@gmail.com", cc := [],
           subject := "s", html := "h", orderId := some "o1",
           restaurantId := some "r1", deliveryState := some "SUCCESS" } :
          EmailDoc).orderId = some "o1") →
      ∃ o2, findOrder
          ((onEmailDeliveryStatusUpdate sentWithEmailDb "e1" 5).2).orders "o1"
          = some o2 ∧
        o2.status = OrderStatus.confirmed)) :=
  ⟨by decide,
    order_status_transition_guards sentWithEmailDb "o1" OrderStatus.sent [] 5
      { baseOrder with status := OrderStatus.sent } "e1" "r1"
      { id := "e1", toAddr := "diegoolalde@gmail.com", cc := [],
        subject := "s", html := "h", orderId := some "o1",
        restaurantId := some "r1", deliveryState := some "SUCCESS" }
      (by decide)⟩

/-- Claim C3: calling `recordOrderDelivery` on an order that is already
`delivered` fails with the `InvalidState` error "Order already delivered"
and performs no write at all: the whole store — order documents, inventory
items and history collections — is returned unchanged. -/
theorem recordOrderDelivery_already_delivered
    (db : Db) (orderId : String) (recv : List ReceivedItem) (now : Int)
    (o : Order) (hf : findOrder db.orders orderId = some o)
    (hs : o.status = OrderStatus.delivered) :
    recordOrderDelivery db orderId recv now
      = (Res.err "Order already delivered", db) := by
  unfold recordOrderDelivery
  simp only [hf]
  rw [if_pos hs]

/-- Witness for claim C3 at a concrete input. -/
theorem recordOrderDelivery_already_delivered_witness :
    findOrder deliveredDb.orders "o1"
      = some { baseOrder with status := OrderStatus.delivered } ∧
    ({ baseOrder with status := OrderStatus.delivered } : Order).status
      = OrderStatus.delivered ∧
    recordOrderDelivery deliveredDb "o1" [] 5
      = (Res.err "Order already delivered", deliveredDb) :=
  ⟨by decide, by decide,
    recordOrderDelivery_already_delivered deliveredDb "o1" [] 5
      { baseOrder with status := OrderStatus.delivered } (by decide) (by decide)⟩

/-- Claim C4: the `updateOrderStatus` callable rejects `delivered` outright,
whatever the tenant, order id or current order state, and leaves the store
— in particular the order document — unmodified. -/
theorem updateOrderStatus_delivered_rejected (db : Db) (orderId : String)
    (now : Int) :
    updateOrderStatus db orderId OrderStatus.delivered now
      = (Res.err "Order status can not be updated to delivered", db) := by
  unfold updateOrderStatus
  rw [if_pos rfl]

/-- The flagging predicate of the sweep, spelled out field by field. -/
theorem isOutdated_iff (now : Int) (item : InventoryItem) :
    isOutdated now item = true ↔
      ∃ lu f, item.lastUpdated = some lu ∧ item.updateFrequency = some f ∧
        (if f = "daily" then (1 : Int)
         else if f = "weekly" then 7
         else if f = "monthly" then 30
         else 1) ≤ Int.fdiv (now - lu) 86400000 := by
  unfold isOutdated
  cases hlu : item.lastUpdated with
  | none => simp [hlu]
  | some lu =>
    cases hf : item.updateFrequency with
    | none => simp [hf]
    | some f => simp [hf, getFrequencyInDays, daysSinceUpdate]

/-- Claim C5: `checkOutdatedItems` flags an item iff it has both a
lastUpdated timestamp and an updateFrequency and
`floor((now − lastUpdated) / 1 day) ≥ cadence(updateFrequency)`, with
cadence daily = 1, weekly = 7, monthly = 30 and any other value defaulting
to 1; items missing either field are never flagged. -/
theorem checkOutdatedItems_flags_iff (now : Int) (items : List InventoryItem)
    (item : InventoryItem) :
    item ∈ checkOutdatedItems now items ↔
      item ∈ items ∧ ∃ lu f, item.lastUpdated = some lu ∧
        item.updateFrequency = some f ∧
        (if f = "daily" then (1 : Int)
         else if f = "weekly" then 7
         else if f = "monthly" then 30
         else 1) ≤ Int.fdiv (now - lu) 86400000 := by
  rw [checkOutdatedItems, List.mem_filter, isOutdated_iff]

/-- Claim C6: for every successful `recordOrderDelivery` call with
distinct payload ids, the order is stored with status `delivered` and every
original line item's receivedQuantity set — in the same single order
write — to the quantity of the payload entry with the matching id, or 0
when no such entry exists; payload entries whose ids are not among the
order's line items are accepted and still applied to inventory provided
they match an inventory record. -/
theorem recordOrderDelivery_sets_received_quantities
    (db : Db) (orderId : String) (recv : List ReceivedItem) (now : Int)
    (o : Order) (hfind : findOrder db.orders orderId = some o)
    (hok : (recordOrderDelivery db orderId recv now).1 = Res.ok)
    (hnodup : recv.Pairwise (fun a b => a.id ≠ b.id)) :
    (∃ o2, findOrder ((recordOrderDelivery db orderId recv now).2).orders
        orderId = some o2 ∧
      o2.status = OrderStatus.delivered ∧
      o2.items = o.items.map (fun it =>
        { it with
          receivedQuantity :=
            match findReceived recv it.id with
            | some r => r.quantity
            | none => 0 })) ∧
    (∀ r ∈ recv, ∀ pre, lookupItem db.inventory r.id = some pre →
      (lookupItem
          ((recordOrderDelivery db orderId recv now).2).inventory r.id).map
          (fun it => it.currentQuantity)
        = some (pre.currentQuantity + r.quantity)) := by
  obtain ⟨order, us, hford, hs, hb, hstate, _⟩ :=
    recordOrderDelivery_ok_inv hok
  have horder : order = o := by
    rw [hfind] at hford
    exact (Option.some.inj hford).symm
  subst horder
  constructor
  · have hg : ∀ o2 : Order,
        ((fun o3 : Order => if o3.id = orderId then
            { o3 with
              items := order.items.map (fun it =>
                { it with
                  receivedQuantity := (lookupReceived recv it.id).getD 0 }),
              status := OrderStatus.delivered }
          else o3) o2).id = o2.id := by
      intro o2
      by_cases h2 : o2.id = orderId <;> simp [h2]
    refine ⟨{ order with
      items := order.items.map (fun it =>
        { it with
          receivedQuantity := (lookupReceived recv it.id).getD 0 }),
      status := OrderStatus.delivered }, ?_, rfl, ?_⟩
    · simp only [hstate]
      rw [findOrder_map hg orderId, hfind]
      simp [findOrder_some_id hfind]
    · refine List.map_congr_left ?_
      intro it _
      rw [lookupReceived_eq_findReceived hnodup it.id]
      cases hfr : findReceived recv it.id with
      | none => simp
      | some r => simp
  · intro r hr pre hpre
    simp only [hstate]
    rw [lookupItem_after_batch, hpre]
    simp only [Option.map_some']
    rw [applyUpdatesTo_build hb (lookupReceived_self hnodup r hr) hpre pre
      (lookupItem_some_id hpre)]

/-- Witness for claim C6 at a concrete input: the order covers item `A`
only, yet the payload also delivers item `B`, which is applied to
inventory. -/
theorem recordOrderDelivery_sets_received_quantities_witness :
    findOrder twoItemDb.orders "o1" = some baseOrder ∧
    (recordOrderDelivery twoItemDb "o1"
        [{ id := "A", name := "Apples", quantity := 8, unit := "kg" },
         { id := "B", name := "Bread", quantity := 2, unit := "units" }]
        1000).1 = Res.ok ∧
    ([({ id := "A", name := "Apples", quantity := 8, unit := "kg" } :
        ReceivedItem),
      { id := "B", name := "Bread", quantity := 2, unit := "units" }]).Pairwise
      (fun a b => a.id ≠ b.id) ∧
    ((∃ o2, findOrder ((recordOrderDelivery twoItemDb "o1"
        [{ id := "A", name := "Apples", quantity := 8, unit := "kg" },
         { id := "B", name := "Bread", quantity := 2, unit := "units" }]
        1000).2).orders "o1" = some o2 ∧
      o2.status = OrderStatus.delivered ∧
      o2.items = baseOrder.items.map (fun it =>
        { it with
          receivedQuantity :=
            match findReceived
                [{ id := "A", name := "Apples", quantity := 8, unit := "kg" },
                 { id := "B", name := "Bread", quantity := 2,
                   unit := "units" }] it.id with
            | some r => r.quantity
            | none => 0 })) ∧
    (∀ r ∈ [({ id := "A", name := "Apples", quantity := 8, unit := "kg" } :
          ReceivedItem),
        { id := "B", name := "Bread", quantity := 2, unit := "units" }],
      ∀ pre, lookupItem twoItemDb.inventory r.id = some pre →
      (lookupItem ((recordOrderDelivery twoItemDb "o1"
          [{ id := "A", name := "Apples", quantity := 8, unit := "kg" },
           { id := "B", name := "Bread", quantity := 2, unit := "units" }]
          1000).2).inventory r.id).map (fun it => it.currentQuantity)
        = some (pre.currentQuantity + r.quantity))) :=
  ⟨by decide, by decide, by decide,
    recordOrderDelivery_sets_received_quantities twoItemDb "o1"
      [{ id := "A", name := "Apples", quantity := 8, unit := "kg" },
       { id := "B", name := "Bread", quantity := 2, unit := "units" }]
      1000 baseOrder (by decide) (by decide) (by decide)⟩

/-- Claim C7 counterexample: on the payload `[(A,-3),(Z,1)]` — `Z`
unmatched in inventory, `A` a line item of the pending order — the call
fails in `Validation.validateOrderPartial` with "Received quantity cannot
be negative" before the snapshot lookup is ever reached, not with the
lookup failure the claim asserts (the store is unchanged). -/
theorem recordOrderDelivery_missing_item_claim_cex :
    ({ id := "Z", name := "Zest", quantity := 1, unit := "kg" } : ReceivedItem)
      ∈ [({ id := "A", name := "Apples", quantity := -3, unit := "kg" } :
          ReceivedItem),
         { id := "Z", name := "Zest", quantity := 1, unit := "kg" }] ∧
    lookupItem baseDb.inventory "Z" = none ∧
    (findOrder baseDb.orders "o1").map (fun o => o.status)
      = some OrderStatus.pending ∧
    recordOrderDelivery baseDb "o1"
        [{ id := "A", name := "Apples", quantity := -3, unit := "kg" },
         { id := "Z", name := "Zest", quantity := 1, unit := "kg" }] 9
      = (Res.err "Received quantity cannot be negative", baseDb) ∧
    (Res.err "Received quantity cannot be negative" : Res)
      ≠ Res.err "TypeError: cannot read currentQuantity of undefined" := by
  decide

/-- Claim C7 (amended): when some payload entry's id has no matching
inventory record, `recordOrderDelivery` fails and neither the quantity
batch nor the history batch is committed — inventory and history are
unchanged; whenever the order write additionally passes
`Validation.validateOrderPartial` (in particular, whenever every payload
entry matching one of the order's line items has a nonnegative quantity),
the failure is the lookup error raised while the quantity batch is being
built. -/
theorem recordOrderDelivery_missing_item_no_batch
    (db : Db) (orderId : String) (recv : List ReceivedItem) (now : Int)
    (o : Order) (r : ReceivedItem)
    (hfind : findOrder db.orders orderId = some o)
    (hs : o.status ≠ OrderStatus.delivered)
    (hr : r ∈ recv) (hmiss : lookupItem db.inventory r.id = none) :
    ((recordOrderDelivery db orderId recv now).1 ≠ Res.ok ∧
     ((recordOrderDelivery db orderId recv now).2).inventory = db.inventory ∧
     ((recordOrderDelivery db orderId recv now).2).history = db.history) ∧
    (validateOrderPatch (o.items.map (fun it =>
        { it with receivedQuantity := (lookupReceived recv it.id).getD 0 }))
        = none →
      (recordOrderDelivery db orderId recv now).1
        = Res.err "TypeError: cannot read currentQuantity of undefined") := by
  unfold recordOrderDelivery
  simp only [hfind]
  rw [if_neg hs]
  cases hv : validateOrderPatch (o.items.map (fun it =>
      { it with receivedQuantity := (lookupReceived recv it.id).getD 0 })) with
  | some e =>
    simp only [updateOrder_err hv OrderStatus.delivered]
    refine ⟨⟨by simp, by simp, by simp⟩, ?_⟩
    intro hv2
    exact absurd hv2 (by simp)
  | none =>
    simp only [updateOrder_ok hv hfind OrderStatus.delivered]
    rw [buildInventoryUpdates_none hr hmiss]
    exact ⟨⟨by simp, rfl, rfl⟩, fun _ => rfl⟩

/-- Witness for the amended claim C7 at a concrete input on which the
order write passes validation, so the failure is the lookup error. -/
theorem recordOrderDelivery_missing_item_no_batch_witness :
    findOrder baseDb.orders "o1" = some baseOrder ∧
    baseOrder.status ≠ OrderStatus.delivered ∧
    ({ id := "Z", name := "Zest", quantity := 1, unit := "kg" } : ReceivedItem)
      ∈ [({ id := "Z", name := "Zest", quantity := 1, unit := "kg" } :
          ReceivedItem)] ∧
    lookupItem baseDb.inventory "Z" = none ∧
    (((recordOrderDelivery baseDb "o1"
        [{ id := "Z", name := "Zest", quantity := 1, unit := "kg" }] 9).1
      ≠ Res.ok ∧
    ((recordOrderDelivery baseDb "o1"
        [{ id := "Z", name := "Zest", quantity := 1, unit := "kg" }] 9).2).inventory
      = baseDb.inventory ∧
    ((recordOrderDelivery baseDb "o1"
        [{ id := "Z", name := "Zest", quantity := 1, unit := "kg" }] 9).2).history
      = baseDb.history) ∧
    (validateOrderPatch (baseOrder.items.map (fun it =>
        { it with
          receivedQuantity :=
            (lookupReceived
              [{ id := "Z", name := "Zest", quantity := 1, unit := "kg" }]
              it.id).getD 0 })) = none →
      (recordOrderDelivery baseDb "o1"
          [{ id := "Z", name := "Zest", quantity := 1, unit := "kg" }] 9).1
        = Res.err "TypeError: cannot read currentQuantity of undefined")) :=
  ⟨by decide, by decide, by decide, by decide,
    recordOrderDelivery_missing_item_no_batch baseDb "o1"
      [{ id := "Z", name := "Zest", quantity := 1, unit := "kg" }] 9 baseOrder
      { id := "Z", name := "Zest", quantity := 1, unit := "kg" }
      (by decide) (by decide) (by decide) (by decide)⟩

/-- Claim C8 counterexample: re-delivering the confirmation trigger at a
later time changes the stored order document — its `lastUpdated` field
moves from the first to the second delivery time. -/
theorem onEmailDeliveryStatusUpdate_redelivery_cex :
    (findOrder (onEmailDeliveryStatusUpdate sentWithEmailDb "e1" 1000).2.orders
        "o1").map (fun o => o.lastUpdated) = some (some 1000) ∧
    (findOrder (onEmailDeliveryStatusUpdate
        (onEmailDeliveryStatusUpdate sentWithEmailDb "e1" 1000).2
        "e1" 2000).2.orders "o1").map (fun o => o.lastUpdated)
      = some (some 2000) ∧
    (onEmailDeliveryStatusUpdate
        (onEmailDeliveryStatusUpdate sentWithEmailDb "e1" 1000).2
        "e1" 2000).2.orders
      ≠ (onEmailDeliveryStatusUpdate sentWithEmailDb "e1" 1000).2.orders := by
  decide

/-- Claim C9: `sendOrder` on an order whose status is not `pending` fails
with the `InvalidState` error "Only pending orders can be sent" and the
store is unchanged: no email document is created and the order's status is
untouched. -/
theorem sendOrder_not_pending_rejected
    (db : Db) (orderId : String) (now : Int) (restaurant : Restaurant)
    (o : Order) (hres : db.restaurant = some restaurant)
    (hf : findOrder db.orders orderId = some o)
    (hs : o.status ≠ OrderStatus.pending) :
    sendOrder db orderId now
      = (Res.err "Only pending orders can be sent", db) := by
  unfold sendOrder
  simp only [hres, hf]
  rw [if_pos hs]

/-- Witness for claim C9 at a concrete input. -/
theorem sendOrder_not_pending_rejected_witness :
    sentWithEmailDb.restaurant = some theRestaurant ∧
    findOrder sentWithEmailDb.orders "o1"
      = some { baseOrder with status := OrderStatus.sent } ∧
    ({ baseOrder with status := OrderStatus.sent } : Order).status
      ≠ OrderStatus.pending ∧
    sendOrder sentWithEmailDb "o1" 5
      = (Res.err "Only pending orders can be sent", sentWithEmailDb) :=
  ⟨by decide, by decide, by decide,
    sendOrder_not_pending_rejected sentWithEmailDb "o1" 5 theRestaurant
      { baseOrder with status := OrderStatus.sent }
      (by decide) (by decide) (by decide)⟩

/-- Claim C10: delivering a payload that repeats item `A` with quantities 3
then 4 appends one `receivedOrder` history record per entry (amounts 3 and
4) while the final currentQuantity is the pre-delivery 5 plus 4 alone: both
batch updates are computed from the same pre-delivery snapshot and the last
write wins, so the duplicate quantities are not summed. -/
theorem recordOrderDelivery_duplicate_ids_last_write_wins :
    (recordOrderDelivery baseDb "o1"
      [{ id := "A", name := "Apples", quantity := 3, unit := "kg" },
       { id := "A", name := "Apples", quantity := 4, unit := "kg" }] 1000).1
      = Res.ok ∧
    (lookupItem baseDb.inventory "A").map (fun it => it.currentQuantity)
      = some 5 ∧
    (lookupItem (recordOrderDelivery baseDb "o1"
        [{ id := "A", name := "Apples", quantity := 3, unit := "kg" },
         { id := "A", name := "Apples", quantity := 4, unit := "kg" }]
        1000).2.inventory "A").map (fun it => it.currentQuantity)
      = some 9 ∧
    baseDb.history = [] ∧
    ((recordOrderDelivery baseDb "o1"
        [{ id := "A", name := "Apples", quantity := 3, unit := "kg" },
         { id := "A", name := "Apples", quantity := 4, unit := "kg" }]
        1000).2.history.filter (fun h => decide (h.itemId = "A"))).map
        (fun h => (h.record.amount, h.record.type))
      = [(3, HistoryType.receivedOrder), (4, HistoryType.receivedOrder)] := by
  decide

end InventoryManager
